import Mathlib

/-!
Verification development for the Papa desktop companion application
(src/src-tauri/src/main.rs).  The Rust source is shallowly embedded:
the SQLite-backed store becomes an explicit `Store` record threaded
through each operation, i64 timestamps become `Int`, `Option` models
nullable columns, and operations return `Store × Except String α`
mirroring the `Result<_, String>` commands.  External effects
(filesystem metadata, SHA-256 hashing, id generation, local-timezone
time formatting) are passed in as explicit function parameters, since
the claims under study do not depend on their values.
-/

namespace Papa

/-- Timeline event row, mirroring `struct TimelineEvent` in main.rs. -/
structure TimelineEvent where
  id : String
  event_type : String
  title : Option String
  note : Option String
  text_content : Option String
  created_at : Int
  source : Option String
  is_deleted : Bool
deriving DecidableEq, Repr

/-- Attachment row, mirroring `struct Attachment` in main.rs. -/
structure Attachment where
  id : String
  event_id : String
  kind : String
  original_path : String
  stored_path : Option String
  file_name : Option String
  mime_type : Option String
  size_bytes : Option Int
  sha256 : Option String
  width : Option Int
  height : Option Int
  created_at : Int
deriving DecidableEq, Repr

/-- Reminder row, mirroring `struct Reminder` in main.rs. -/
structure Reminder where
  id : String
  event_id : String
  remind_at : Int
  message : String
  status : String
  triggered_at : Option Int
  snooze_until : Option Int
  created_at : Int
deriving DecidableEq, Repr

/-- Daily export row, mirroring `struct DailyExport` in main.rs. -/
structure DailyExport where
  id : String
  date_key : String
  output_format : String
  output_path : String
  created_at : Int
deriving DecidableEq, Repr

/-- Result bundle of event commands, mirroring `struct TimelineEventWithAttachments`. -/
structure TimelineEventWithAttachments where
  event : TimelineEvent
  attachments : List Attachment
  reminders : List Reminder
deriving DecidableEq, Repr

/-- Request payload of `create_drop_event`, mirroring `struct CreateDropEventRequest`. -/
structure CreateDropEventRequest where
  paths : List String
  note : Option String
  remind_at : Option Int
  remind_message : Option String
deriving DecidableEq, Repr

/-- Request payload of `list_events`, mirroring `struct ListEventsRequest`. -/
structure ListEventsRequest where
  start_date : Option Int
  end_date : Option Int
  page : Option Nat
  page_size : Option Nat
deriving DecidableEq, Repr

/-- Payload of the reminder-due notification, mirroring `struct ReminderDuePayload`. -/
structure ReminderDuePayload where
  reminder : Reminder
  event : TimelineEvent
  attachments : List Attachment
deriving DecidableEq, Repr

/-- The SQLite database (file `papa_pet.sqlite`, schema created by `init_db`),
embedded as in-memory tables plus the export directory's file contents.
`files` maps an export file name to its current content, modelling `fs::write`. -/
structure Store where
  events : List TimelineEvent
  attachments : List Attachment
  reminders : List Reminder
  daily_exports : List DailyExport
  settings : List (String × String)
  files : String → Option String

/-- Final component of a path, modelling `Path::file_name` for the plain
file paths the commands receive (split on the separator, last nonempty part). -/
def fileNameOf (p : String) : Option String :=
  match (p.splitOn "/").getLast? with
  | some s => if s = "" then none else some s
  | none => none

/-- Extension of a path, modelling `Path::extension`: the portion of the file
name after its last dot, none when there is no dot or the only dot is the
leading dot of a hidden file. -/
def extensionOf (p : String) : Option String :=
  (fileNameOf p).bind fun name =>
    match name.splitOn "." with
    | [] => none
    | [_] => none
    | first :: rest =>
      if first = "" ∧ rest.length = 1 then none else rest.getLast?

/-- Extension-based MIME classification, mirroring `get_mime_type` in main.rs. -/
def getMimeType (p : String) : Option String :=
  (extensionOf p).map fun e =>
    match e.toLower with
    | "jpg" | "jpeg" => "image/jpeg"
    | "png" => "image/png"
    | "gif" => "image/gif"
    | "webp" => "image/webp"
    | "svg" => "image/svg+xml"
    | "bmp" => "image/bmp"
    | "pdf" => "application/pdf"
    | "txt" => "text/plain"
    | "md" => "text/markdown"
    | "json" => "application/json"
    | "html" | "htm" => "text/html"
    | "css" => "text/css"
    | "js" => "application/javascript"
    | "ts" => "application/typescript"
    | "xml" => "application/xml"
    | "zip" => "application/zip"
    | "doc" => "application/msword"
    | "docx" => "application/vnd.openxmlformats-officedocument.wordprocessingml.document"
    | "xls" => "application/vnd.ms-excel"
    | "xlsx" => "application/vnd.openxmlformats-officedocument.spreadsheetml.sheet"
    | "ppt" => "application/vnd.ms-powerpoint"
    | "pptx" => "application/vnd.openxmlformats-officedocument.presentationml.presentation"
    | _ => "application/octet-stream"

/-- Mirrors `is_image_type` in main.rs. -/
def isImageType (mime : Option String) : Bool :=
  match mime with
  | some m => m.startsWith "image/"
  | none => false

/-- One attachment row built by the per-path loop body of `create_drop_event`.
`fsSize` models `fs::metadata(..).ok().map(|m| m.len())` and `fsHash` models
`hash_file(..).ok()` (a failed hash degrades to a null column). -/
def mkDropAttachment (fsSize : String → Option Int) (fsHash : String → Option String)
    (attId eventId pathStr : String) (now : Int) : Attachment :=
  let mime := getMimeType pathStr
  { id := attId
    event_id := eventId
    kind := if isImageType mime then "image" else "file"
    original_path := pathStr
    stored_path := none
    file_name := fileNameOf pathStr
    mime_type := mime
    size_bytes := fsSize pathStr
    sha256 := fsHash pathStr
    width := none
    height := none
    created_at := now }

/-- The attachment-insertion loop of `create_drop_event`: one row per path, in
input order; `k` indexes into the stream of generated ids (`generate_id` is
called once per path, after the event's own id). -/
def buildAttachments (fsSize : String → Option Int) (fsHash : String → Option String)
    (genId : Nat → String) (eventId : String) (now : Int) :
    Nat → List String → List Attachment
  | _, [] => []
  | k, p :: ps =>
      mkDropAttachment fsSize fsHash (genId k) eventId p now ::
        buildAttachments fsSize fsHash genId eventId now (k + 1) ps

/-- Success branch of `create_drop_event` in main.rs, for `paths = first :: rest`:
insert the event row, then one attachment row per path, then the optional
reminder row.  `genId n` is the result of the n-th `generate_id()` call of
the command (event id first, then one per path, then the optional reminder
id) and `now` is the command's single `now_ms()` reading. -/
def dropEventCore (fsSize : String → Option Int) (fsHash : String → Option String)
    (genId : Nat → String) (now : Int) (st : Store) (req : CreateDropEventRequest)
    (first : String) (rest : List String) :
    Store × TimelineEventWithAttachments :=
    let event_id := genId 0
    let mime := getMimeType first
    let event_type := if isImageType mime then "image" else "file"
    let title := fileNameOf first
    let atts := buildAttachments fsSize fsHash genId event_id now 1 (first :: rest)
    let rems : List Reminder :=
      match req.remind_at with
      | some remind_at =>
        let message :=
          match req.remind_message with
          | some m => m
          | none =>
            match req.note with
            | some n => n
            | none =>
              match title with
              | some t => t
              | none => "Reminder"
        [{ id := genId ((first :: rest).length + 1)
           event_id := event_id
           remind_at := remind_at
           message := message
           status := "pending"
           triggered_at := none
           snooze_until := none
           created_at := now }]
      | none => []
    let event : TimelineEvent :=
      { id := event_id
        event_type := event_type
        title := title
        note := req.note
        text_content := none
        created_at := now
        source := some "drop"
        is_deleted := false }
    ({ st with
        events := st.events ++ [event]
        attachments := st.attachments ++ atts
        reminders := st.reminders ++ rems },
     { event := event, attachments := atts, reminders := rems })

/-- Mirrors `create_drop_event` in main.rs: the empty-input guard is the
early `return Err("No files provided")` before any database work. -/
def createDropEvent (fsSize : String → Option Int) (fsHash : String → Option String)
    (genId : Nat → String) (now : Int) (st : Store) (req : CreateDropEventRequest) :
    Store × Except String TimelineEventWithAttachments :=
  match req.paths with
  | [] => (st, .error "No files provided")
  | first :: rest =>
    let r := dropEventCore fsSize fsHash genId now st req first rest
    (r.1, .ok r.2)

theorem buildAttachments_length (fsSize : String → Option Int)
    (fsHash : String → Option String) (genId : Nat → String) (eventId : String)
    (now : Int) : ∀ (k : Nat) (ps : List String),
    (buildAttachments fsSize fsHash genId eventId now k ps).length = ps.length := by
  intro k ps
  induction ps generalizing k with
  | nil => rfl
  | cons p ps ih => simp [buildAttachments, ih]

theorem buildAttachments_getElem_path (fsSize : String → Option Int)
    (fsHash : String → Option String) (genId : Nat → String) (eventId : String)
    (now : Int) : ∀ (k : Nat) (ps : List String) (i : Nat),
    ((buildAttachments fsSize fsHash genId eventId now k ps)[i]?).map
      (fun a => a.original_path) = ps[i]? := by
  intro k ps
  induction ps generalizing k with
  | nil => intro i; rfl
  | cons p ps ih =>
    intro i
    cases i with
    | zero => simp [buildAttachments, mkDropAttachment]
    | succ j => simp [buildAttachments, ih]

theorem buildAttachments_event_id (fsSize : String → Option Int)
    (fsHash : String → Option String) (genId : Nat → String) (eventId : String)
    (now : Int) : ∀ (k : Nat) (ps : List String),
    ∀ a ∈ buildAttachments fsSize fsHash genId eventId now k ps,
      a.event_id = eventId := by
  intro k ps
  induction ps generalizing k with
  | nil => intro a ha; cases ha
  | cons p ps ih =>
    intro a ha
    rw [buildAttachments, List.mem_cons] at ha
    rcases ha with rfl | ha
    · rfl
    · exact ih _ a ha

/-- Insert into a list sorted by the boolean comparison `le`. -/
def insertSorted {α : Type} (le : α → α → Bool) (x : α) : List α → List α
  | [] => [x]
  | y :: ys => if le x y then x :: y :: ys else y :: insertSorted le x ys

/-- Insertion sort modelling a SQL ORDER BY clause: the result is the input
rows arranged so `le` holds between adjacent elements. -/
def sortRows {α : Type} (le : α → α → Bool) : List α → List α
  | [] => []
  | x :: xs => insertSorted le x (sortRows le xs)

theorem mem_insertSorted {α : Type} (le : α → α → Bool) (x a : α) :
    ∀ l : List α, a ∈ insertSorted le x l ↔ a = x ∨ a ∈ l := by
  intro l
  induction l with
  | nil => simp [insertSorted]
  | cons y ys ih =>
    by_cases hle : le x y
    · simp [insertSorted, hle]
    · simp only [insertSorted, hle, Bool.false_eq_true, if_false, List.mem_cons, ih]
      tauto

theorem mem_sortRows {α : Type} (le : α → α → Bool) (a : α) :
    ∀ l : List α, a ∈ sortRows le l ↔ a ∈ l := by
  intro l
  induction l with
  | nil => simp [sortRows]
  | cons x xs ih => simp [sortRows, mem_insertSorted, ih]

/-- Attachment rows of one event, as selected by
`SELECT ... FROM attachments WHERE event_id = ?`. -/
def attachmentsOf (st : Store) (eventId : String) : List Attachment :=
  st.attachments.filter fun a => a.event_id == eventId

/-- Reminder rows of one event, as selected by
`SELECT ... FROM reminders WHERE event_id = ?`. -/
def remindersOf (st : Store) (eventId : String) : List Reminder :=
  st.reminders.filter fun r => r.event_id == eventId

/-- Row list produced by `list_events` in main.rs: events with
`is_deleted = 0`, optional inclusive `created_at` bounds, ordered by
`created_at DESC`, paginated with `LIMIT page_size OFFSET page * page_size`,
each event joined with its attachments and reminders. -/
def listEventsRows (st : Store) (req : ListEventsRequest) :
    List TimelineEventWithAttachments :=
  let page := req.page.getD 0
  let pageSize := req.page_size.getD 50
  let offset := page * pageSize
  let filtered := st.events.filter fun e =>
    !e.is_deleted &&
      (match req.start_date with
       | some s => decide (s ≤ e.created_at)
       | none => true) &&
      (match req.end_date with
       | some en => decide (e.created_at ≤ en)
       | none => true)
  let sorted := sortRows (fun a b => decide (b.created_at ≤ a.created_at)) filtered
  let paged := (sorted.drop offset).take pageSize
  paged.map fun e =>
    { event := e
      attachments := attachmentsOf st e.id
      reminders := remindersOf st e.id }

/-- Mirrors `list_events` in main.rs (a read-only command). -/
def listEvents (st : Store) (req : ListEventsRequest) :
    Store × Except String (List TimelineEventWithAttachments) :=
  (st, .ok (listEventsRows st req))

/-- Mirrors `get_event_detail` in main.rs: a single-row lookup by id with no
`is_deleted` filter; a missing row maps to the "Event not found" error. -/
def getEventDetail (st : Store) (eventId : String) :
    Store × Except String TimelineEventWithAttachments :=
  match st.events.find? (fun e => e.id == eventId) with
  | none => (st, .error "Event not found")
  | some e =>
      (st, .ok { event := e
                 attachments := attachmentsOf st eventId
                 reminders := remindersOf st eventId })

/-- Mirrors `delete_event` in main.rs:
`UPDATE timeline_events SET is_deleted = 1 WHERE id = ?` (a soft delete that
succeeds even when no row matches). -/
def deleteEvent (st : Store) (eventId : String) : Store × Except String Unit :=
  ({ st with events := st.events.map fun e =>
      if e.id == eventId then { e with is_deleted := true } else e },
   .ok ())

/-- Mirrors `update_event_note` in main.rs:
`UPDATE timeline_events SET note = ? WHERE id = ?`. -/
def updateEventNote (st : Store) (eventId : String) (note : String) :
    Store × Except String Unit :=
  ({ st with events := st.events.map fun e =>
      if e.id == eventId then { e with note := some note } else e },
   .ok ())

/-- Mirrors `snooze_reminder` in main.rs: computes
`snooze_until = now_ms() + snooze_minutes * 60 * 1000` and runs
`UPDATE reminders SET status = 'snoozed', snooze_until = ? WHERE id = ?`. -/
def snoozeReminder (now : Int) (st : Store) (reminderId : String)
    (snoozeMinutes : Int) : Store × Except String Unit :=
  let snooze_until := now + snoozeMinutes * 60 * 1000
  ({ st with reminders := st.reminders.map fun r =>
      if r.id == reminderId then
        { r with status := "snoozed", snooze_until := some snooze_until }
      else r },
   .ok ())

/-- Mirrors `dismiss_reminder` in main.rs:
`UPDATE reminders SET status = 'dismissed', triggered_at = ? WHERE id = ?`
with `triggered_at = now_ms()`. -/
def dismissReminder (now : Int) (st : Store) (reminderId : String) :
    Store × Except String Unit :=
  ({ st with reminders := st.reminders.map fun r =>
      if r.id == reminderId then
        { r with status := "dismissed", triggered_at := some now }
      else r },
   .ok ())

/-- Store with all tables empty and no export files on disk. -/
def emptyStore : Store :=
  { events := []
    attachments := []
    reminders := []
    daily_exports := []
    settings := []
    files := fun _ => none }

theorem dropEventCore_eq (fsSize : String → Option Int) (fsHash : String → Option String)
    (genId : Nat → String) (now : Int) (st : Store) (req : CreateDropEventRequest)
    (first : String) (rest : List String) :
    (dropEventCore fsSize fsHash genId now st req first rest).1.events
        = st.events ++ [(dropEventCore fsSize fsHash genId now st req first rest).2.event] ∧
    (dropEventCore fsSize fsHash genId now st req first rest).1.attachments
        = st.attachments ++ (dropEventCore fsSize fsHash genId now st req first rest).2.attachments ∧
    (dropEventCore fsSize fsHash genId now st req first rest).1.reminders
        = st.reminders ++ (dropEventCore fsSize fsHash genId now st req first rest).2.reminders ∧
    (dropEventCore fsSize fsHash genId now st req first rest).2.attachments
        = buildAttachments fsSize fsHash genId (genId 0) now 1 (first :: rest) ∧
    (dropEventCore fsSize fsHash genId now st req first rest).2.event.id = genId 0 :=
  ⟨rfl, rfl, rfl, rfl, rfl⟩

/-- C1: for every non-empty list of paths, `create_drop_event` succeeds,
appends exactly one timeline-event row, returns exactly `paths.length`
attachments (the i-th attachment recording the i-th input path), and every
returned attachment's `event_id` equals the created event's id. -/
theorem createDropEvent_one_event_attachments_per_path
    (fsSize : String → Option Int) (fsHash : String → Option String)
    (genId : Nat → String) (now : Int) (st : Store) (req : CreateDropEventRequest)
    (h : req.paths ≠ []) :
    ∃ st' res, createDropEvent fsSize fsHash genId now st req = (st', Except.ok res) ∧
      st'.events = st.events ++ [res.event] ∧
      st'.attachments = st.attachments ++ res.attachments ∧
      res.attachments.length = req.paths.length ∧
      (∀ i : Nat, (res.attachments[i]?).map (fun a => a.original_path) = req.paths[i]?) ∧
      (∀ a ∈ res.attachments, a.event_id = res.event.id) := by
  cases hp : req.paths with
  | nil => exact absurd hp h
  | cons first rest =>
    obtain ⟨h1, h2, _h3, h4, h5⟩ := dropEventCore_eq fsSize fsHash genId now st req first rest
    refine ⟨(dropEventCore fsSize fsHash genId now st req first rest).1,
            (dropEventCore fsSize fsHash genId now st req first rest).2,
            by simp [createDropEvent, hp], h1, h2, ?_, ?_, ?_⟩
    · rw [h4, buildAttachments_length]
    · intro i
      rw [h4, buildAttachments_getElem_path]
    · intro a ha
      rw [h5]
      rw [h4] at ha
      exact buildAttachments_event_id fsSize fsHash genId (genId 0) now 1 (first :: rest) a ha

/-- Witness for C1 at a concrete two-path drop request. -/
theorem createDropEvent_one_event_attachments_per_path_witness :
    ((["/tmp/a.png", "/tmp/b.txt"] : List String) ≠ []) ∧
    (∃ st' res, createDropEvent (fun _ => none) (fun _ => none) (fun n => Nat.repr n) 5
        emptyStore ⟨["/tmp/a.png", "/tmp/b.txt"], none, none, none⟩ = (st', Except.ok res) ∧
      st'.events = emptyStore.events ++ [res.event] ∧
      st'.attachments = emptyStore.attachments ++ res.attachments ∧
      res.attachments.length = (["/tmp/a.png", "/tmp/b.txt"] : List String).length ∧
      (∀ i : Nat, (res.attachments[i]?).map (fun a => a.original_path)
          = (["/tmp/a.png", "/tmp/b.txt"] : List String)[i]?) ∧
      (∀ a ∈ res.attachments, a.event_id = res.event.id)) :=
  ⟨by decide,
   createDropEvent_one_event_attachments_per_path (fun _ => none) (fun _ => none)
     (fun n => Nat.repr n) 5 emptyStore ⟨["/tmp/a.png", "/tmp/b.txt"], none, none, none⟩
     (by decide)⟩

/-- C6: `create_drop_event` with an empty path list fails with the
empty-input error ("No files provided") and leaves the store unchanged,
matching the early return before any row is inserted. -/
theorem createDropEvent_empty_paths_error
    (fsSize : String → Option Int) (fsHash : String → Option String)
    (genId : Nat → String) (now : Int) (st : Store) (req : CreateDropEventRequest)
    (h : req.paths = []) :
    createDropEvent fsSize fsHash genId now st req = (st, Except.error "No files provided") := by
  simp [createDropEvent, h]

/-- Witness for C6 at a concrete empty drop request. -/
theorem createDropEvent_empty_paths_error_witness :
    (([] : List String) = []) ∧
    createDropEvent (fun _ => none) (fun _ => none) (fun n => Nat.repr n) 5
      emptyStore ⟨[], some "n", some 7, none⟩
      = (emptyStore, Except.error "No files provided") :=
  ⟨rfl,
   createDropEvent_empty_paths_error (fun _ => none) (fun _ => none)
     (fun n => Nat.repr n) 5 emptyStore ⟨[], some "n", some 7, none⟩ rfl⟩

theorem map_ite_id {α : Type} (p : α → Bool) (f : α → α) :
    ∀ l : List α, (∀ x ∈ l, p x = false) →
      (l.map fun x => if p x then f x else x) = l := by
  intro l h
  induction l with
  | nil => rfl
  | cons a as ih =>
    have ha := h a (List.mem_cons_self a as)
    simp only [List.map_cons, ha, Bool.false_eq_true, if_false]
    rw [ih fun x hx => h x (List.mem_cons_of_mem a hx)]

theorem find?_key_eq {α : Type} (key : α → String) :
    ∀ l : List α, (l.map key).Nodup → ∀ a ∈ l,
      l.find? (fun x => key x == key a) = some a := by
  intro l
  induction l with
  | nil => intro _ a ha; cases ha
  | cons b bs ih =>
    intro hn a ha
    rw [List.map_cons, List.nodup_cons] at hn
    obtain ⟨hnb, hnt⟩ := hn
    by_cases hb : key b = key a
    · have hba : b = a := by
        rcases List.mem_cons.mp ha with rfl | hmem
        · rfl
        · exact absurd (by rw [hb]; exact List.mem_map_of_mem key hmem) hnb
      rw [List.find?_cons_of_pos _ (by simp [hb])]
      exact congrArg some hba
    · rw [List.find?_cons_of_neg _ (by simp [hb])]
      have hmem : a ∈ bs := by
        rcases List.mem_cons.mp ha with rfl | hmem
        · exact absurd rfl hb
        · exact hmem
      exact ih hnt a hmem

/-- C7: `list_events` never returns a soft-deleted event; `get_event_detail`
on the id of an existing row (soft-deleted or not) returns that row with its
attachments and reminders; `get_event_detail` fails with "Event not found"
whenever no row with that id exists. -/
theorem listEvents_hides_deleted_getEventDetail_by_id
    (st : Store) (req : ListEventsRequest) (eid : String) :
    (∀ x ∈ listEventsRows st req, x.event.is_deleted = false) ∧
    (∀ e, e ∈ st.events → e.id = eid → (st.events.map (fun v => v.id)).Nodup →
      getEventDetail st eid = (st, Except.ok
        { event := e
          attachments := attachmentsOf st eid
          reminders := remindersOf st eid })) ∧
    ((∀ e ∈ st.events, e.id ≠ eid) →
      getEventDetail st eid = (st, Except.error "Event not found")) := by
  refine ⟨?_, ?_, ?_⟩
  · intro x hx
    simp only [listEventsRows] at hx
    obtain ⟨e, he, rfl⟩ := List.mem_map.mp hx
    have h1 := List.mem_of_mem_drop (List.mem_of_mem_take he)
    have h2 := (mem_sortRows _ e _).mp h1
    have h3 := (List.mem_filter.mp h2).2
    simp only [Bool.and_eq_true, Bool.not_eq_true'] at h3
    exact h3.1.1
  · intro e he heq hn
    subst heq
    have hf := find?_key_eq (fun v => v.id) st.events hn e he
    simp only [getEventDetail, hf]
  · intro hno
    have hf : st.events.find? (fun e => e.id == eid) = none :=
      List.find?_eq_none.mpr fun e he => by simpa using hno e he
    simp only [getEventDetail, hf]

/-- Soft-deleted sample row used by concrete witnesses. -/
def sampleDeleted : TimelineEvent :=
  { id := "e1"
    event_type := "file"
    title := none
    note := none
    text_content := none
    created_at := 10
    source := some "drop"
    is_deleted := true }

/-- Store holding a single soft-deleted event. -/
def sampleStore : Store := { emptyStore with events := [sampleDeleted] }

/-- Witness for C7 on a store whose only event is soft-deleted. -/
theorem listEvents_hides_deleted_getEventDetail_by_id_witness :
    (∀ x ∈ listEventsRows sampleStore ⟨none, none, none, none⟩,
      x.event.is_deleted = false) ∧
    getEventDetail sampleStore "e1"
      = (sampleStore, Except.ok ⟨sampleDeleted, [], []⟩) ∧
    getEventDetail sampleStore "nope"
      = (sampleStore, Except.error "Event not found") := by
  obtain ⟨hA, hB, _⟩ :=
    listEvents_hides_deleted_getEventDetail_by_id sampleStore ⟨none, none, none, none⟩ "e1"
  obtain ⟨_, _, hC⟩ :=
    listEvents_hides_deleted_getEventDetail_by_id sampleStore ⟨none, none, none, none⟩ "nope"
  refine ⟨hA, ?_, hC (by decide)⟩
  have hres := hB sampleDeleted (by decide) rfl (by decide)
  simpa [attachmentsOf, remindersOf, sampleStore, emptyStore] using hres

/-- C9: each of `delete_event`, `update_event_note`, `snooze_reminder` and
`dismiss_reminder` run against an id matching no row returns success and
leaves every row unchanged (the UPDATE simply affects zero rows). -/
theorem missing_id_updates_noop (st : Store) (eid rid note : String) (now m : Int)
    (he : ∀ e ∈ st.events, e.id ≠ eid) (hr : ∀ r ∈ st.reminders, r.id ≠ rid) :
    deleteEvent st eid = (st, Except.ok ()) ∧
    updateEventNote st eid note = (st, Except.ok ()) ∧
    snoozeReminder now st rid m = (st, Except.ok ()) ∧
    dismissReminder now st rid = (st, Except.ok ()) := by
  have he' : ∀ e ∈ st.events, (e.id == eid) = false := fun e h => by
    simpa using he e h
  have hr' : ∀ r ∈ st.reminders, (r.id == rid) = false := fun r h => by
    simpa using hr r h
  have h1 : (st.events.map fun e =>
      if e.id == eid then { e with is_deleted := true } else e) = st.events :=
    map_ite_id _ _ st.events he'
  have h2 : (st.events.map fun e =>
      if e.id == eid then { e with note := some note } else e) = st.events :=
    map_ite_id _ _ st.events he'
  have h3 : (st.reminders.map fun r =>
      if r.id == rid then
        { r with status := "snoozed", snooze_until := some (now + m * 60 * 1000) }
      else r) = st.reminders :=
    map_ite_id _ _ st.reminders hr'
  have h4 : (st.reminders.map fun r =>
      if r.id == rid then
        { r with status := "dismissed", triggered_at := some now }
      else r) = st.reminders :=
    map_ite_id _ _ st.reminders hr'
  exact ⟨by simp only [deleteEvent]; rw [h1],
         by simp only [updateEventNote]; rw [h2],
         by simp only [snoozeReminder]; rw [h3],
         by simp only [dismissReminder]; rw [h4]⟩

/-- Witness for C9 on a store whose only event id is "e1": ids "zz"/"rr"
match nothing. -/
theorem missing_id_updates_noop_witness :
    deleteEvent sampleStore "zz" = (sampleStore, Except.ok ()) ∧
    updateEventNote sampleStore "zz" "hello" = (sampleStore, Except.ok ()) ∧
    snoozeReminder 100 sampleStore "rr" 10 = (sampleStore, Except.ok ()) ∧
    dismissReminder 100 sampleStore "rr" = (sampleStore, Except.ok ()) :=
  missing_id_updates_noop sampleStore "zz" "rr" "hello" 100 10
    (by decide) (by decide)

/-- The scheduler's due predicate, mirroring the WHERE clause
`(status = 'pending' AND remind_at <= ?1) OR (status = 'snoozed' AND snooze_until <= ?1)`
(a NULL `snooze_until` compares as false in SQL). -/
def isDue (now : Int) (r : Reminder) : Bool :=
  (r.status == "pending" && decide (r.remind_at ≤ now)) ||
    (r.status == "snoozed" &&
      match r.snooze_until with
      | some v => decide (v ≤ now)
      | none => false)

/-- The update `SET status = 'triggered', triggered_at = ?` run by the
scheduler on a due reminder whose parent event was found. -/
def markTriggered (now : Int) (r : Reminder) : Reminder :=
  { r with status := "triggered", triggered_at := some now }

/-- Whether the scheduler's parent-event lookup
`SELECT ... FROM timeline_events WHERE id = ?` finds a row. -/
def eventFound (events : List TimelineEvent) (d : Reminder) : Bool :=
  (events.find? fun e => e.id == d.event_id).isSome

/-- The reminder-due payload the scheduler emits for a due reminder, or none
when the parent event row is missing. -/
def mkDuePayload (events : List TimelineEvent) (atts : List Attachment)
    (d : Reminder) : Option ReminderDuePayload :=
  (events.find? fun e => e.id == d.event_id).map fun ev =>
    { reminder := d
      event := ev
      attachments := atts.filter fun a => a.event_id == d.event_id }

/-- Body of the scheduler's per-due-reminder loop in `main`: look up the
parent event; if found, update that reminder row to triggered and emit the
payload; if missing, do nothing for this reminder. -/
def processDue (now : Int) (events : List TimelineEvent) (atts : List Attachment)
    (acc : List Reminder × List ReminderDuePayload) (d : Reminder) :
    List Reminder × List ReminderDuePayload :=
  match events.find? (fun e => e.id == d.event_id) with
  | some ev =>
      (acc.1.map fun x => if x.id == d.id then markTriggered now x else x,
       acc.2 ++ [{ reminder := d
                   event := ev
                   attachments := atts.filter fun a => a.event_id == d.event_id }])
  | none => acc

/-- Due reminders selected by one scheduler tick, ordered by
`remind_at ASC` as in the query. -/
def dueReminders (now : Int) (st : Store) : List Reminder :=
  sortRows (fun a b => decide (a.remind_at ≤ b.remind_at))
    (st.reminders.filter (isDue now))

/-- One 30-second tick of the reminder scanner spawned in `main`: read `now`
once, select the due reminders, process each in order, returning the updated
store and the list of emitted reminder-due notifications. -/
def schedulerTick (now : Int) (st : Store) : Store × List ReminderDuePayload :=
  let due := dueReminders now st
  let res := due.foldl (processDue now st.events st.attachments) (st.reminders, [])
  ({ st with reminders := res.1 }, res.2)

theorem mem_dueReminders (now : Int) (st : Store) (r : Reminder) :
    r ∈ dueReminders now st ↔ r ∈ st.reminders ∧ isDue now r = true := by
  simp [dueReminders, mem_sortRows, List.mem_filter]

theorem isDue_mono (r : Reminder) (now now' : Int) (h : now ≤ now')
    (hd : isDue now r = true) : isDue now' r = true := by
  cases hsn : r.snooze_until with
  | none =>
    simp only [isDue, hsn, Bool.and_false, Bool.or_false, Bool.and_eq_true,
      decide_eq_true_eq] at hd ⊢
    exact ⟨hd.1, le_trans hd.2 h⟩
  | some v =>
    simp only [isDue, hsn, Bool.or_eq_true, Bool.and_eq_true, decide_eq_true_eq] at hd ⊢
    rcases hd with ⟨hs, hle⟩ | ⟨hs, hle⟩
    · exact Or.inl ⟨hs, le_trans hle h⟩
    · exact Or.inr ⟨hs, le_trans hle h⟩

theorem foldl_processDue_fst (now : Int) (events : List TimelineEvent)
    (atts : List Attachment) :
    ∀ (due rs : List Reminder) (ns : List ReminderDuePayload),
      (due.foldl (processDue now events atts) (rs, ns)).1
        = rs.map fun x =>
            if due.any (fun d => x.id == d.id && eventFound events d)
            then markTriggered now x else x := by
  intro due
  induction due with
  | nil =>
    intro rs ns
    simp [List.foldl_nil, List.any_nil]
  | cons d due ih =>
    intro rs ns
    rw [List.foldl_cons]
    cases hfind : events.find? (fun e => e.id == d.event_id) with
    | none =>
      have hpd : processDue now events atts (rs, ns) d = (rs, ns) := by
        simp [processDue, hfind]
      rw [hpd, ih]
      have hfun : (fun (x : Reminder) =>
            if due.any (fun d' => x.id == d'.id && eventFound events d')
            then markTriggered now x else x)
          = fun x =>
            if (d :: due).any (fun d' => x.id == d'.id && eventFound events d')
            then markTriggered now x else x := by
        funext x
        simp [List.any_cons, eventFound, hfind]
      rw [hfun]
    | some ev =>
      have hpd : processDue now events atts (rs, ns) d
          = (rs.map fun x => if x.id == d.id then markTriggered now x else x,
             ns ++ [{ reminder := d
                      event := ev
                      attachments := atts.filter fun a => a.event_id == d.event_id }]) := by
        simp [processDue, hfind]
      rw [hpd, ih, List.map_map]
      have hfun : ((fun (x : Reminder) =>
            if due.any (fun d' => x.id == d'.id && eventFound events d')
            then markTriggered now x else x)
          ∘ fun x => if x.id == d.id then markTriggered now x else x)
          = fun x =>
            if (d :: due).any (fun d' => x.id == d'.id && eventFound events d')
            then markTriggered now x else x := by
        funext x
        by_cases hx : (x.id == d.id) = true
        · simp only [Function.comp, hx, if_true, List.any_cons, eventFound, hfind,
            Option.isSome_some, Bool.and_true]
          cases hany : due.any fun d' =>
              (markTriggered now x).id == d'.id && eventFound events d' with
          | false =>
            have hany' : due.any (fun d' => x.id == d'.id && eventFound events d')
                = false := hany
            simp [hany', hx, markTriggered]
          | true =>
            have hany' : due.any (fun d' => x.id == d'.id && eventFound events d')
                = true := hany
            simp [hany', hx, markTriggered]
        · simp only [Function.comp, hx, Bool.false_eq_true, if_false, List.any_cons,
            eventFound, hfind, Option.isSome_some, Bool.and_true]
          simp [hx]
      rw [hfun]

theorem foldl_processDue_snd (now : Int) (events : List TimelineEvent)
    (atts : List Attachment) :
    ∀ (due rs : List Reminder) (ns : List ReminderDuePayload),
      (due.foldl (processDue now events atts) (rs, ns)).2
        = ns ++ due.filterMap (mkDuePayload events atts) := by
  intro due
  induction due with
  | nil => intro rs ns; simp [List.foldl_nil]
  | cons d due ih =>
    intro rs ns
    rw [List.foldl_cons]
    cases hfind : events.find? (fun e => e.id == d.event_id) with
    | none =>
      have hpd : processDue now events atts (rs, ns) d = (rs, ns) := by
        simp [processDue, hfind]
      rw [hpd, ih]
      simp [List.filterMap_cons, mkDuePayload, hfind]
    | some ev =>
      have hpd : processDue now events atts (rs, ns) d
          = (rs.map fun x => if x.id == d.id then markTriggered now x else x,
             ns ++ [{ reminder := d
                      event := ev
                      attachments := atts.filter fun a => a.event_id == d.event_id }]) := by
        simp [processDue, hfind]
      rw [hpd, ih]
      simp [List.filterMap_cons, mkDuePayload, hfind]

/-- C3: on a scheduler tick, every due reminder whose parent event row exists
is set to triggered with `triggered_at` stamped to the tick's `now`, and a
reminder-due payload carrying the reminder snapshot, the event, and its
attachments is emitted; a due reminder whose parent event row is missing is
left unchanged, receives no notification, and is still due at any later tick
time. -/
theorem schedulerTick_due_reminders (now now' : Int) (st : Store) (r : Reminder)
    (hmem : r ∈ st.reminders) (hdue : isDue now r = true)
    (hn : (st.reminders.map fun x => x.id).Nodup) :
    (∀ ev, st.events.find? (fun e => e.id == r.event_id) = some ev →
      markTriggered now r ∈ (schedulerTick now st).1.reminders ∧
      (markTriggered now r).status = "triggered" ∧
      (markTriggered now r).triggered_at = some now ∧
      ({ reminder := r
         event := ev
         attachments := st.attachments.filter fun a => a.event_id == r.event_id } :
        ReminderDuePayload) ∈ (schedulerTick now st).2) ∧
    (st.events.find? (fun e => e.id == r.event_id) = none →
      r ∈ (schedulerTick now st).1.reminders ∧
      (∀ p ∈ (schedulerTick now st).2, p.reminder.id ≠ r.id) ∧
      (now ≤ now' → isDue now' r = true)) := by
  have hfst : (schedulerTick now st).1.reminders
      = st.reminders.map fun x =>
          if (dueReminders now st).any (fun d => x.id == d.id && eventFound st.events d)
          then markTriggered now x else x :=
    foldl_processDue_fst now st.events st.attachments (dueReminders now st)
      st.reminders []
  have hsnd : (schedulerTick now st).2
      = (dueReminders now st).filterMap (mkDuePayload st.events st.attachments) := by
    have h := foldl_processDue_snd now st.events st.attachments (dueReminders now st)
      st.reminders []
    simpa using h
  have hrdue : r ∈ dueReminders now st := (mem_dueReminders now st r).mpr ⟨hmem, hdue⟩
  constructor
  · intro ev hev
    have hfound : eventFound st.events r = true := by simp [eventFound, hev]
    have hany : (dueReminders now st).any
        (fun d => r.id == d.id && eventFound st.events d) = true :=
      List.any_eq_true.mpr ⟨r, hrdue, by simp [hfound]⟩
    refine ⟨?_, rfl, rfl, ?_⟩
    · rw [hfst]
      have himg : (fun (x : Reminder) =>
          if (dueReminders now st).any (fun d => x.id == d.id && eventFound st.events d)
          then markTriggered now x else x) r = markTriggered now r := by
        simp only [hany, if_true]
      exact himg ▸ List.mem_map_of_mem _ hmem
    · rw [hsnd]
      exact List.mem_filterMap.mpr ⟨r, hrdue, by simp [mkDuePayload, hev]⟩
  · intro hev
    have hnotfound : eventFound st.events r = false := by simp [eventFound, hev]
    have hany : (dueReminders now st).any
        (fun d => r.id == d.id && eventFound st.events d) = false := by
      rw [List.any_eq_false]
      intro d hd
      obtain ⟨hdm, _⟩ := (mem_dueReminders now st d).mp hd
      by_cases hid : r.id = d.id
      · have hdr : d = r :=
          List.inj_on_of_nodup_map hn hdm hmem hid.symm
        subst hdr
        simp [hnotfound]
      · simp [hid]
    refine ⟨?_, ?_, fun h' => isDue_mono r now now' h' hdue⟩
    · rw [hfst]
      have himg : (fun (x : Reminder) =>
          if (dueReminders now st).any (fun d => x.id == d.id && eventFound st.events d)
          then markTriggered now x else x) r = r := by
        simp only [hany, Bool.false_eq_true, if_false]
      exact himg ▸ List.mem_map_of_mem _ hmem
    · intro p hp hpid
      rw [hsnd] at hp
      obtain ⟨d, hd, hpd⟩ := List.mem_filterMap.mp hp
      obtain ⟨hdm, _⟩ := (mem_dueReminders now st d).mp hd
      obtain ⟨ev, hevd, hpeq⟩ := Option.map_eq_some'.mp (by simpa [mkDuePayload] using hpd)
      have hdid : d.id = r.id := by rw [← hpid, ← hpeq]
      have hdr : d = r := List.inj_on_of_nodup_map hn hdm hmem hdid
      rw [hdr] at hevd
      rw [hev] at hevd
      cases hevd

/-- Event row used by the scheduler witness. -/
def wEvent : TimelineEvent :=
  { id := "e1"
    event_type := "file"
    title := some "t"
    note := none
    text_content := none
    created_at := 10
    source := some "drop"
    is_deleted := false }

/-- Due pending reminder whose parent event exists. -/
def wRem1 : Reminder :=
  { id := "r1", event_id := "e1", remind_at := 20, message := "m1"
    status := "pending", triggered_at := none, snooze_until := none, created_at := 10 }

/-- Due pending reminder whose parent event row is missing. -/
def wRem2 : Reminder :=
  { id := "r2", event_id := "ghost", remind_at := 30, message := "m2"
    status := "pending", triggered_at := none, snooze_until := none, created_at := 10 }

/-- Store with one event and two due reminders, one orphaned. -/
def wStore : Store :=
  { emptyStore with events := [wEvent], reminders := [wRem1, wRem2] }

/-- Witness for C3 at a concrete tick: the reminder with a parent event is
triggered and notified, the orphaned one is untouched and still due later. -/
theorem schedulerTick_due_reminders_witness :
    (markTriggered 100 wRem1 ∈ (schedulerTick 100 wStore).1.reminders ∧
     ({ reminder := wRem1
        event := wEvent
        attachments := wStore.attachments.filter fun a => a.event_id == wRem1.event_id } :
       ReminderDuePayload) ∈ (schedulerTick 100 wStore).2) ∧
    (wRem2 ∈ (schedulerTick 100 wStore).1.reminders ∧
     (∀ p ∈ (schedulerTick 100 wStore).2, p.reminder.id ≠ wRem2.id) ∧
     isDue 130 wRem2 = true) := by
  have h1 := schedulerTick_due_reminders 100 130 wStore wRem1
    (by decide) (by decide) (by decide)
  have h2 := schedulerTick_due_reminders 100 130 wStore wRem2
    (by decide) (by decide) (by decide)
  obtain ⟨ha, _, _, hb⟩ := h1.1 wEvent (by decide)
  obtain ⟨hx, hy, hz⟩ := h2.2 (by decide)
  exact ⟨⟨ha, hb⟩, ⟨hx, hy, hz (by decide)⟩⟩

/-- User and scheduler transitions acting on one reminder row: snooze and
dismiss are the unconditional UPDATEs of `snooze_reminder` /
`dismiss_reminder`; `tick now eventExists` is one scheduler pass over the
row, which triggers it only when it is due and its parent event row exists. -/
inductive RemOp where
  | snooze (now minutes : Int)
  | dismiss (now : Int)
  | tick (now : Int) (eventExists : Bool)
deriving DecidableEq, Repr

/-- Effect of one operation on a reminder row, as executed by
`snooze_reminder`, `dismiss_reminder`, and the scheduler loop in `main`. -/
def applyOp : RemOp → Reminder → Reminder
  | .snooze now m, r =>
      { r with status := "snoozed", snooze_until := some (now + m * 60 * 1000) }
  | .dismiss now, r =>
      { r with status := "dismissed", triggered_at := some now }
  | .tick now evEx, r =>
      if isDue now r && evEx then markTriggered now r else r

/-- Run a sequence of operations on a reminder row. -/
def runOps : List RemOp → Reminder → Reminder
  | [], r => r
  | op :: ops, r => runOps ops (applyOp op r)

/-- Statuses the row passes through after each operation of the run (the
initial status, always "pending" for a fresh reminder, is not included). -/
def statusesAfter : List RemOp → Reminder → List String
  | [], _ => []
  | op :: ops, r => (applyOp op r).status :: statusesAfter ops (applyOp op r)

/-- Reminder row as inserted by `create_reminder` / `create_drop_event` /
`create_text_event`: status pending, `triggered_at` and `snooze_until` NULL. -/
def initialReminder (id eventId : String) (remindAt : Int) (message : String)
    (createdAt : Int) : Reminder :=
  { id := id
    event_id := eventId
    remind_at := remindAt
    message := message
    status := "pending"
    triggered_at := none
    snooze_until := none
    created_at := createdAt }

/-- Field/status consistency of a single reminder row: a triggered or
dismissed row carries a `triggered_at` stamp and a snoozed row carries a
`snooze_until` value. -/
def ReminderInv (r : Reminder) : Prop :=
  (r.status = "triggered" ∨ r.status = "dismissed" → r.triggered_at.isSome = true) ∧
  (r.status = "snoozed" → r.snooze_until.isSome = true)

theorem applyOp_step (op : RemOp) (r : Reminder) (hInv : ReminderInv r) :
    ReminderInv (applyOp op r) ∧
    ((applyOp op r).triggered_at.isSome = true ↔
      r.triggered_at.isSome = true ∨ "triggered" = (applyOp op r).status ∨
        "dismissed" = (applyOp op r).status) ∧
    ((applyOp op r).snooze_until.isSome = true ↔
      r.snooze_until.isSome = true ∨ "snoozed" = (applyOp op r).status) := by
  obtain ⟨hTD, hS⟩ := hInv
  cases op with
  | snooze now m =>
    refine ⟨⟨?_, ?_⟩, ?_, ?_⟩ <;> simp [applyOp]
  | dismiss now =>
    refine ⟨⟨?_, ?_⟩, ?_, ?_⟩ <;> simp [applyOp]
  | tick now evEx =>
    by_cases hc : (isDue now r && evEx) = true
    · refine ⟨⟨?_, ?_⟩, ?_, ?_⟩ <;> simp [applyOp, hc, markTriggered]
    · have hceq : (if isDue now r && evEx then markTriggered now r else r) = r := by
        simp [hc]
      refine ⟨⟨?_, ?_⟩, ?_, ?_⟩ <;> simp only [applyOp, hceq]
      · exact hTD
      · exact hS
      · constructor
        · exact fun h => Or.inl h
        · rintro (h | h | h)
          · exact h
          · exact hTD (Or.inl h.symm)
          · exact hTD (Or.inr h.symm)
      · constructor
        · exact fun h => Or.inl h
        · rintro (h | h)
          · exact h
          · exact hS h.symm

theorem runOps_field_history (ops : List RemOp) :
    ∀ r : Reminder, ReminderInv r →
      ((runOps ops r).triggered_at.isSome = true ↔
        r.triggered_at.isSome = true ∨ "triggered" ∈ statusesAfter ops r ∨
          "dismissed" ∈ statusesAfter ops r) ∧
      ((runOps ops r).snooze_until.isSome = true ↔
        r.snooze_until.isSome = true ∨ "snoozed" ∈ statusesAfter ops r) ∧
      ReminderInv (runOps ops r) := by
  induction ops with
  | nil =>
    intro r hInv
    refine ⟨?_, ?_, hInv⟩ <;> simp [runOps, statusesAfter]
  | cons op ops ih =>
    intro r hInv
    obtain ⟨hInv', ht, hs⟩ := applyOp_step op r hInv
    obtain ⟨iht, ihs, ihInv⟩ := ih (applyOp op r) hInv'
    have hrun : runOps (op :: ops) r = runOps ops (applyOp op r) := rfl
    have hsa : statusesAfter (op :: ops) r
        = (applyOp op r).status :: statusesAfter ops (applyOp op r) := rfl
    refine ⟨?_, ?_, by rw [hrun]; exact ihInv⟩
    · rw [hrun, iht, hsa]
      simp only [List.mem_cons]
      rw [ht]
      constructor
      · rintro ((h | h | h) | h | h)
        · exact Or.inl h
        · exact Or.inr (Or.inl (Or.inl h))
        · exact Or.inr (Or.inr (Or.inl h))
        · exact Or.inr (Or.inl (Or.inr h))
        · exact Or.inr (Or.inr (Or.inr h))
      · rintro (h | (h | h) | (h | h))
        · exact Or.inl (Or.inl h)
        · exact Or.inl (Or.inr (Or.inl h))
        · exact Or.inr (Or.inl h)
        · exact Or.inl (Or.inr (Or.inr h))
        · exact Or.inr (Or.inr h)
    · rw [hrun, ihs, hsa]
      simp only [List.mem_cons]
      rw [hs]
      exact or_assoc

/-- C2 as stated by the spec, over every run of user and scheduler
transitions from a freshly created reminder: `triggered_at` is set iff the
status passed through triggered at least once, and `snooze_until` is set iff
the status is currently snoozed. -/
def ReminderClaimedInvariant : Prop :=
  ∀ (id eventId message : String) (remindAt createdAt : Int) (ops : List RemOp),
    ((runOps ops (initialReminder id eventId remindAt message createdAt)).triggered_at.isSome = true ↔
      "triggered" ∈ statusesAfter ops (initialReminder id eventId remindAt message createdAt)) ∧
    ((runOps ops (initialReminder id eventId remindAt message createdAt)).snooze_until.isSome = true ↔
      (runOps ops (initialReminder id eventId remindAt message createdAt)).status = "snoozed")

/-- Counterexample to C2: dismissing a fresh reminder stamps `triggered_at`
although its status never was triggered (and snoozing then triggering leaves
`snooze_until` set while the status is no longer snoozed). -/
theorem reminder_claimed_invariant_false : ¬ ReminderClaimedInvariant := by
  intro h
  have hinst := (h "r1" "e1" "m" 0 0 [RemOp.dismiss 5]).1
  revert hinst
  decide

/-- C2 amended: over every run of user and scheduler transitions from a
freshly created reminder, `triggered_at` is set iff the status has been
triggered or dismissed at least once (dismissal also stamps it), and
`snooze_until` is set iff the status has been snoozed at least once (it is
never cleared by later transitions). -/
theorem reminder_field_invariant (id eventId message : String)
    (remindAt createdAt : Int) (ops : List RemOp) :
    ((runOps ops (initialReminder id eventId remindAt message createdAt)).triggered_at.isSome = true ↔
      "triggered" ∈ statusesAfter ops (initialReminder id eventId remindAt message createdAt) ∨
      "dismissed" ∈ statusesAfter ops (initialReminder id eventId remindAt message createdAt)) ∧
    ((runOps ops (initialReminder id eventId remindAt message createdAt)).snooze_until.isSome = true ↔
      "snoozed" ∈ statusesAfter ops (initialReminder id eventId remindAt message createdAt)) := by
  have hInv : ReminderInv (initialReminder id eventId remindAt message createdAt) := by
    constructor
    · intro h
      rcases h with h | h <;> simp [initialReminder] at h
    · intro h
      simp [initialReminder] at h
  obtain ⟨ht, hs, _⟩ := runOps_field_history ops
    (initialReminder id eventId remindAt message createdAt) hInv
  constructor
  · rw [ht]
    simp [initialReminder]
  · rw [hs]
    simp [initialReminder]

/-- Left-to-right non-overlapping substring replacement over character
lists, modelling Rust's `str::replace`.  The fuel argument only bounds the
recursion; instantiated with the input length it is never exhausted for the
non-empty patterns used here, since every step consumes at least one
character. -/
def replaceChars (pat repl : List Char) : Nat → List Char → List Char
  | 0, s => s
  | fuel + 1, s =>
    match s with
    | [] => []
    | c :: rest =>
      if pat.isPrefixOf (c :: rest) then
        repl ++ replaceChars pat repl fuel ((c :: rest).drop pat.length)
      else
        c :: replaceChars pat repl fuel rest

/-- Rust's `s.replace(pat, repl)` on strings. -/
def rustReplace (s pat repl : String) : String :=
  ⟨replaceChars pat.data repl.data s.data.length s.data⟩

/-- The substitution chain of the HTML branch of `generate_daily_export`:
`content.replace("\n", "<br>\n").replace("# ", "<h1>").replace("## ", "<h2>")`. -/
def htmlSubst (content : String) : String :=
  rustReplace (rustReplace (rustReplace content "\n" "<br>\n") "# " "<h1>") "## " "<h2>"

/-- The fixed HTML document the html format wraps the substituted content
in (the braces and apostrophes of the Rust format string's CSS are written
with \x7b, \x7d and \x27 escapes). -/
def htmlWrap (dateKey content : String) : String :=
  "<!DOCTYPE html>\n<html>\n<head>\n  <meta charset=\"UTF-8\">\n  <title>Daily Record - "
    ++ dateKey
    ++ "</title>\n  <style>\n    body \x7b font-family: -apple-system, BlinkMacSystemFont, \x27Segoe UI\x27, sans-serif; max-width: 800px; margin: 0 auto; padding: 20px; line-height: 1.6; \x7d\n    h1 \x7b color: #333; border-bottom: 2px solid #ffb347; padding-bottom: 10px; \x7d\n    h2 \x7b color: #555; margin-top: 30px; \x7d\n    hr \x7b border: none; border-top: 1px solid #eee; margin: 20px 0; \x7d\n    pre \x7b background: #f5f5f5; padding: 15px; border-radius: 5px; overflow-x: auto; \x7d\n  </style>\n</head>\n<body>\n"
    ++ htmlSubst content
    ++ "\n</body>\n</html>"

/-- Per-event-type icon used by the export renderer. -/
def eventIcon (t : String) : String :=
  match t with
  | "image" => "🖼️"
  | "text" => "📝"
  | "thought" => "💭"
  | _ => "📄"

/-- One attachment bullet of the export renderer. -/
def attachmentLine (a : Attachment) : String :=
  "- " ++ (if a.kind == "image" then "🖼️" else "📎") ++ " "
    ++ a.file_name.getD "Unknown" ++ "\n"

/-- Markdown section rendered for one event by `generate_daily_export`.
`fmtTime` abstracts the chrono local-timezone `HH:MM` formatting of
`created_at`. -/
def renderEvent (fmtTime : Int → String) (st : Store) (e : TimelineEvent) : String :=
  let header := "## " ++ fmtTime e.created_at ++ " " ++ eventIcon e.event_type
    ++ " " ++ e.title.getD "Untitled" ++ "\n\n"
  let noteBlock :=
    match e.note with
    | some n => if n = "" then "" else n ++ "\n\n"
    | none => ""
  let textBlock :=
    match e.text_content with
    | some t => if t = "" then "" else "```\n" ++ t ++ "\n```\n\n"
    | none => ""
  let attBlock :=
    let atts := attachmentsOf st e.id
    if atts.isEmpty then ""
    else "**Attachments:**\n" ++ String.join (atts.map attachmentLine) ++ "\n"
  header ++ noteBlock ++ textBlock ++ attBlock ++ "---\n\n"

/-- Events selected for the export day:
`created_at >= ?1 AND created_at <= ?2 AND is_deleted = 0 ORDER BY created_at ASC`. -/
def eventsForDay (st : Store) (startOfDay endOfDay : Int) : List TimelineEvent :=
  sortRows (fun a b => decide (a.created_at ≤ b.created_at))
    (st.events.filter fun e =>
      decide (startOfDay ≤ e.created_at) && decide (e.created_at ≤ endOfDay)
        && !e.is_deleted)

/-- The assembled Markdown content of `generate_daily_export`. -/
def renderMarkdown (fmtTime : Int → String) (st : Store) (dateKey : String)
    (startOfDay endOfDay : Int) : String :=
  let events := eventsForDay st startOfDay endOfDay
  "# Daily Record - " ++ dateKey ++ "\n\n" ++ Nat.repr events.length
    ++ " records\n\n---\n\n"
    ++ String.join (events.map (renderEvent fmtTime st))

/-- The export-record insert
`INSERT INTO daily_exports ... ON CONFLICT(date_key, output_format) DO UPDATE SET output_path = ?4, created_at = ?5`
against the unique index on `(date_key, output_format)`: an existing row for
the pair keeps its id and gets its path and timestamp refreshed, otherwise
the new row is appended. -/
def upsertDailyExport (row : DailyExport) (rows : List DailyExport) : List DailyExport :=
  if rows.any (fun e => e.date_key == row.date_key && e.output_format == row.output_format) then
    rows.map fun e =>
      if e.date_key == row.date_key && e.output_format == row.output_format then
        { e with output_path := row.output_path, created_at := row.created_at }
      else e
  else rows ++ [row]

/-- Number of daily_exports rows for one `(date_key, output_format)` pair. -/
def exportRowCount (rows : List DailyExport) (dateKey format : String) : Nat :=
  (rows.filter fun e => e.date_key == dateKey && e.output_format == format).length

/-- Mirrors `generate_daily_export` in main.rs after a successful parse of
`date_key`: `startOfDay`/`endOfDay` are the local-midnight and 23:59:59.999
millisecond bounds chrono computes, `fmtTime` the local `HH:MM` formatter,
`exportId` the `generate_id()` result and `now` the `now_ms()` reading.
The output path is modelled by the file name `{date_key}.{md|html}` inside
the exports directory.  The source never validates `format`: only the exact
value "html" selects the html extension and wrapped content, every other
value falls to the raw-Markdown branch. -/
def generateDailyExport (fmtTime : Int → String) (startOfDay endOfDay : Int)
    (exportId : String) (now : Int) (st : Store) (dateKey format : String) :
    Store × String :=
  let content := renderMarkdown fmtTime st dateKey startOfDay endOfDay
  let fileExt := if format == "html" then "html" else "md"
  let fileName := dateKey ++ "." ++ fileExt
  let finalContent := if format == "html" then htmlWrap dateKey content else content
  let row : DailyExport :=
    { id := exportId
      date_key := dateKey
      output_format := format
      output_path := fileName
      created_at := now }
  ({ st with
      files := fun q => if q == fileName then some finalContent else st.files q
      daily_exports := upsertDailyExport row st.daily_exports },
   fileName)

/-- C4: evaluation of the HTML substitution chain at heading markers.  A
level-1 marker becomes an h1 tag, but a level-2 marker becomes the stray
text "#<h1>": the earlier `"# "` → `"<h1>"` replacement consumes the inside
of every `"## "` occurrence, so the final `"## "` → `"<h2>"` replacement
never fires and no h2 tag is produced. -/
theorem htmlSubst_level2_marker_eval :
    htmlSubst "# T\n## U V\n" = "<h1>T<br>\n#<h1>U V<br>\n" ∧
    htmlSubst "## 10:00 x" = "#<h1>10:00 x" :=
  ⟨by decide, by decide⟩

theorem exportRowCount_upsert (row : DailyExport) (rows : List DailyExport)
    (h : exportRowCount rows row.date_key row.output_format ≤ 1) :
    exportRowCount (upsertDailyExport row rows) row.date_key row.output_format = 1 := by
  by_cases hany : rows.any
      (fun e => e.date_key == row.date_key && e.output_format == row.output_format) = true
  · rw [exportRowCount, upsertDailyExport, if_pos hany, List.filter_map]
    have hpf : ((fun (e : DailyExport) =>
            e.date_key == row.date_key && e.output_format == row.output_format)
          ∘ fun (e : DailyExport) =>
            if e.date_key == row.date_key && e.output_format == row.output_format then
              { e with output_path := row.output_path, created_at := row.created_at }
            else e)
        = fun (e : DailyExport) =>
            e.date_key == row.date_key && e.output_format == row.output_format := by
      funext e
      by_cases he : (e.date_key == row.date_key && e.output_format == row.output_format) = true
      · simp only [Function.comp, he, if_true]
      · simp only [Function.comp, he, Bool.false_eq_true, if_false]
    rw [hpf, List.length_map]
    obtain ⟨x, hx, hpx⟩ := List.any_eq_true.mp hany
    have h1 : 0 < (rows.filter
        (fun e => e.date_key == row.date_key && e.output_format == row.output_format)).length :=
      List.length_pos.mpr (List.ne_nil_of_mem (List.mem_filter.mpr ⟨hx, hpx⟩))
    rw [exportRowCount] at h
    omega
  · rw [exportRowCount, upsertDailyExport, if_neg hany, List.filter_append]
    have hnone : rows.filter
        (fun e => e.date_key == row.date_key && e.output_format == row.output_format) = [] := by
      rw [List.filter_eq_nil_iff]
      intro a ha
      exact fun hpa => hany (List.any_eq_true.mpr ⟨a, ha, hpa⟩)
    rw [hnone]
    simp

/-- C5: calling `generate_daily_export` twice for the same
`(date_key, format)` pair leaves exactly one daily_exports row for the pair
(the ON CONFLICT clause updates in place), and the export file holds the
content rendered by the latest call. -/
theorem generateDailyExport_idempotent (fmtTime fmtTime' : Int → String)
    (s1 e1 s2 e2 : Int) (id1 id2 : String) (t1 t2 : Int) (st : Store)
    (dateKey format : String)
    (h : exportRowCount st.daily_exports dateKey format ≤ 1) :
    exportRowCount (generateDailyExport fmtTime' s2 e2 id2 t2
        (generateDailyExport fmtTime s1 e1 id1 t1 st dateKey format).1
        dateKey format).1.daily_exports dateKey format = 1 ∧
    (generateDailyExport fmtTime' s2 e2 id2 t2
        (generateDailyExport fmtTime s1 e1 id1 t1 st dateKey format).1
        dateKey format).1.files
        (dateKey ++ "." ++ if format == "html" then "html" else "md")
      = some (if format == "html"
          then htmlWrap dateKey (renderMarkdown fmtTime'
            (generateDailyExport fmtTime s1 e1 id1 t1 st dateKey format).1 dateKey s2 e2)
          else renderMarkdown fmtTime'
            (generateDailyExport fmtTime s1 e1 id1 t1 st dateKey format).1 dateKey s2 e2) := by
  have hrows1 : (generateDailyExport fmtTime s1 e1 id1 t1 st dateKey format).1.daily_exports
      = upsertDailyExport
          { id := id1, date_key := dateKey, output_format := format
            output_path := dateKey ++ "." ++ (if format == "html" then "html" else "md")
            created_at := t1 } st.daily_exports := rfl
  have hrows2 : (generateDailyExport fmtTime' s2 e2 id2 t2
        (generateDailyExport fmtTime s1 e1 id1 t1 st dateKey format).1
        dateKey format).1.daily_exports
      = upsertDailyExport
          { id := id2, date_key := dateKey, output_format := format
            output_path := dateKey ++ "." ++ (if format == "html" then "html" else "md")
            created_at := t2 }
          (generateDailyExport fmtTime s1 e1 id1 t1 st dateKey format).1.daily_exports := rfl
  constructor
  · rw [hrows2]
    apply exportRowCount_upsert
    rw [hrows1]
    have h1 := exportRowCount_upsert
      { id := id1, date_key := dateKey, output_format := format
        output_path := dateKey ++ "." ++ (if format == "html" then "html" else "md")
        created_at := t1 } st.daily_exports h
    rw [h1]
  · show (fun q => if q == dateKey ++ "." ++ (if format == "html" then "html" else "md")
        then some _ else _) _ = _
    simp

/-- C10: for every format other than "html" (such as "pdf") the export
takes the raw-Markdown branch: the returned path has extension ".md", the
file holds the unwrapped Markdown content, and the upserted daily_exports
row stores the caller's format string verbatim. -/
theorem generateDailyExport_nonhtml_raw_md (fmtTime : Int → String)
    (startOfDay endOfDay : Int) (exportId : String) (now : Int) (st : Store)
    (dateKey format : String) (h : format ≠ "html") :
    (generateDailyExport fmtTime startOfDay endOfDay exportId now st dateKey format).2
      = dateKey ++ "." ++ "md" ∧
    (generateDailyExport fmtTime startOfDay endOfDay exportId now st dateKey format).1.files
        (dateKey ++ "." ++ "md")
      = some (renderMarkdown fmtTime st dateKey startOfDay endOfDay) ∧
    (generateDailyExport fmtTime startOfDay endOfDay exportId now st dateKey format).1.daily_exports
      = upsertDailyExport
          { id := exportId, date_key := dateKey, output_format := format
            output_path := dateKey ++ "." ++ "md", created_at := now } st.daily_exports := by
  have hbeq : (format == "html") = false := by
    simp [h]
  refine ⟨?_, ?_, ?_⟩
  · simp [generateDailyExport, hbeq]
  · simp [generateDailyExport, hbeq]
  · simp [generateDailyExport, hbeq]

/-- Witness for C5: two markdown exports of the same day on the empty store. -/
theorem generateDailyExport_idempotent_witness :
    exportRowCount emptyStore.daily_exports "2024-01-01" "md" ≤ 1 ∧
    (exportRowCount (generateDailyExport (fun _ => "00:00") 0 86399999 "x2" 20
        (generateDailyExport (fun _ => "00:00") 0 86399999 "x1" 10 emptyStore
          "2024-01-01" "md").1
        "2024-01-01" "md").1.daily_exports "2024-01-01" "md" = 1 ∧
     (generateDailyExport (fun _ => "00:00") 0 86399999 "x2" 20
        (generateDailyExport (fun _ => "00:00") 0 86399999 "x1" 10 emptyStore
          "2024-01-01" "md").1
        "2024-01-01" "md").1.files
        ("2024-01-01" ++ "." ++ if ("md" == "html") then "html" else "md")
       = some (if ("md" == "html")
           then htmlWrap "2024-01-01" (renderMarkdown (fun _ => "00:00")
             (generateDailyExport (fun _ => "00:00") 0 86399999 "x1" 10 emptyStore
               "2024-01-01" "md").1 "2024-01-01" 0 86399999)
           else renderMarkdown (fun _ => "00:00")
             (generateDailyExport (fun _ => "00:00") 0 86399999 "x1" 10 emptyStore
               "2024-01-01" "md").1 "2024-01-01" 0 86399999)) :=
  ⟨by decide,
   generateDailyExport_idempotent (fun _ => "00:00") (fun _ => "00:00") 0 86399999 0 86399999
     "x1" "x2" 10 20 emptyStore "2024-01-01" "md" (by decide)⟩

/-- Witness for C10 at the unrecognized format "pdf". -/
theorem generateDailyExport_nonhtml_raw_md_witness :
    ("pdf" ≠ "html") ∧
    ((generateDailyExport (fun _ => "00:00") 0 86399999 "x1" 10 emptyStore
        "2024-01-01" "pdf").2 = "2024-01-01" ++ "." ++ "md" ∧
     (generateDailyExport (fun _ => "00:00") 0 86399999 "x1" 10 emptyStore
        "2024-01-01" "pdf").1.files ("2024-01-01" ++ "." ++ "md")
       = some (renderMarkdown (fun _ => "00:00") emptyStore "2024-01-01" 0 86399999) ∧
     (generateDailyExport (fun _ => "00:00") 0 86399999 "x1" 10 emptyStore
        "2024-01-01" "pdf").1.daily_exports
       = upsertDailyExport
           { id := "x1", date_key := "2024-01-01", output_format := "pdf"
             output_path := "2024-01-01" ++ "." ++ "md", created_at := 10 }
           emptyStore.daily_exports) :=
  ⟨by decide,
   generateDailyExport_nonhtml_raw_md (fun _ => "00:00") 0 86399999 "x1" 10 emptyStore
     "2024-01-01" "pdf" (by decide)⟩

/-- Typing speed of the behavior snapshot: `key_press_count / time_window`
behind the `time_window > 0.0` guard, in exact rational arithmetic standing
in for f64. -/
def typingSpeedOf (keyPressCount timeWindow : ℚ) : ℚ :=
  if 0 < timeWindow then keyPressCount / timeWindow else 0

/-- Mouse move speed of the behavior snapshot: `mouse_move_distance /
time_window` behind the same guard. -/
def mouseMoveSpeedOf (distance timeWindow : ℚ) : ℚ :=
  if 0 < timeWindow then distance / timeWindow else 0

/-- The composite activity level computed in the aggregate behavior loop:
`(typing_speed * 0.3 + (mouse_move_speed / 1000.0).min(1.0) * 0.3 +
(mouse_click_count as f64 / time_window).min(5.0) / 5.0 * 0.4).min(1.0)`. -/
def activityLevel (keyPressCount mouseClickCount distance timeWindow : ℚ) : ℚ :=
  min (typingSpeedOf keyPressCount timeWindow * (3 / 10)
    + min (mouseMoveSpeedOf distance timeWindow / 1000) 1 * (3 / 10)
    + min (mouseClickCount / timeWindow) 5 / 5 * (4 / 10)) 1

/-- C8: for nonnegative key-press count, click count and accumulated mouse
distance, and a positive time window, the published activity level lies in
the closed interval [0, 1]. -/
theorem activityLevel_bounds (k c d t : ℚ) (hk : 0 ≤ k) (hc : 0 ≤ c)
    (hd : 0 ≤ d) (ht : 0 < t) :
    0 ≤ activityLevel k c d t ∧ activityLevel k c d t ≤ 1 := by
  constructor
  · apply le_min _ zero_le_one
    have h1 : 0 ≤ typingSpeedOf k t := by
      rw [typingSpeedOf, if_pos ht]
      exact div_nonneg hk ht.le
    have h2 : 0 ≤ min (mouseMoveSpeedOf d t / 1000) 1 := by
      apply le_min _ zero_le_one
      rw [mouseMoveSpeedOf, if_pos ht]
      positivity
    have h3 : (0 : ℚ) ≤ min (c / t) 5 / 5 := by
      apply div_nonneg _ (by norm_num)
      exact le_min (div_nonneg hc ht.le) (by norm_num)
    exact add_nonneg (add_nonneg (mul_nonneg h1 (by norm_num))
      (mul_nonneg h2 (by norm_num))) (mul_nonneg h3 (by norm_num))
  · exact min_le_right _ 1

/-- Witness for C8 at a concrete busy two-second window. -/
theorem activityLevel_bounds_witness :
    ((0 : ℚ) ≤ 3 ∧ (0 : ℚ) ≤ 2 ∧ (0 : ℚ) ≤ 500 ∧ (0 : ℚ) < 2) ∧
    (0 ≤ activityLevel 3 2 500 2 ∧ activityLevel 3 2 500 2 ≤ 1) :=
  ⟨⟨by norm_num, by norm_num, by norm_num, by norm_num⟩,
   activityLevel_bounds 3 2 500 2 (by norm_num) (by norm_num) (by norm_num) (by norm_num)⟩

end Papa
